import Mathlib

/-!
Verification of the pdf_mcpserver hybrid retrieval engine.

The Python sources under `src/` are shallowly embedded: Python `str` becomes
`String` (a list of code points), Python `int` becomes `Int` (or `Nat` for
counts that are never negative on the modelled code paths), the confidence
arithmetic — whose values are all small decimal fractions — is carried out in
`ℚ`, raised `ValueError`s become the `Err` sum type through `Except`, and
external collaborators (document conversion, the two langchain sub-retrievers,
the chat model) are oracle functions supplied as data.
-/

namespace PdfMcp

/-- Python-style whitespace test, the character class removed by `str.strip()`. -/
def isPySpace (c : Char) : Bool :=
  c == ' ' || c == '\t' || c == '\n' || c == '\r' || c == '\x0B' || c == '\x0C'

/-- Embedding of Python `str.strip()`: drop leading and trailing whitespace. -/
def pyStrip (s : String) : String :=
  String.mk (((s.data.dropWhile isPySpace).reverse.dropWhile isPySpace).reverse)

/-- Embedding of Python `len` on strings (number of code points). -/
def pyLen (s : String) : Nat := s.data.length

/-- Embedding of Python `str.lower()`; ASCII folding, which is exact for the
fixed uncertainty phrases the code compares against. -/
def pyLower (s : String) : String := String.mk (s.data.map Char.toLower)

/-- Check whether the needle occurs at the head of the haystack. -/
def listStartsWith : List Char → List Char → Bool
  | [], _ => true
  | _ :: _, [] => false
  | n :: ns, h :: hs => n == h && listStartsWith ns hs

/-- Check whether the needle occurs as a contiguous sublist of the haystack. -/
def listContainsSub (needle : List Char) : List Char → Bool
  | [] => needle.isEmpty
  | h :: hs => listStartsWith needle (h :: hs) || listContainsSub needle hs

/-- Embedding of the Python substring test `needle in haystack`. -/
def pyIn (needle haystack : String) : Bool := listContainsSub needle.data haystack.data

/-- Embedding of Python `max(a, b)` on numbers (ties return the first argument). -/
def pyMax (a b : ℚ) : ℚ := if b ≤ a then a else b

/-- Embedding of Python `min(a, b)` on numbers (ties return the first argument). -/
def pyMin (a b : ℚ) : ℚ := if a ≤ b then a else b

/-- Error taxonomy. The source raises `ValueError` with distinct messages; the
spec (§7) names them: `noPdfFiles` is "No PDF files found in ...",
`emptyCorpus` is "No chunks were successfully processed from PDF files"
(`EmptyCorpusError`), `retrieverNotReady` is "Retriever not initialized. Call
load_and_index_pdfs() first." (`RetrieverNotReadyError`), and `emptyQuery` is
"Query cannot be empty" / "Question cannot be empty" (`EmptyQueryError`). -/
inductive Err where
  | noPdfFiles
  | emptyCorpus
  | retrieverNotReady
  | emptyQuery
deriving DecidableEq

/-- A stored chunk: a langchain document with `page_content` and the
`metadata["source"]` / `metadata["page"]` entries the handlers read. -/
structure Chunk where
  content : String
  source : String
  page : Option Int
deriving DecidableEq

/-- Embedding of `PDFProcessor._generate_hash`, the SHA-256 hex digest of the
chunk content. The digest is used by the code only as a deduplication identity
for the content, so it is modelled by an injective digest: the content itself. -/
def generate_hash (content : String) : String := content

/-! Constants from `src/constants.py`. -/

def BM25_TOP_K : Nat := 3

def VECTOR_SEARCH_TOP_K : Nat := 3

def DEFAULT_CHUNK_LIMIT : Nat := 5

def MAX_CHUNK_PREVIEW_LENGTH : Nat := 200

def BASE_CONFIDENCE : ℚ := 0.5

def CONFIDENCE_LONG_ANSWER_THRESHOLD : Nat := 100

def CONFIDENCE_SHORT_ANSWER_THRESHOLD : Nat := 30

def CONFIDENCE_MIN_CHUNKS_THRESHOLD : Int := 3

def CONFIDENCE_BOOST_LONG : ℚ := 0.2

def CONFIDENCE_PENALTY_SHORT : ℚ := 0.2

def CONFIDENCE_BOOST_MANY_CHUNKS : ℚ := 0.2

def CONFIDENCE_PENALTY_FEW_CHUNKS : ℚ := 0.1

def CONFIDENCE_PENALTY_UNCERTAINTY : ℚ := 0.3

def UNCERTAINTY_PHRASES : List String :=
  ["i don\x27t know",
   "i couldn\x27t find",
   "not enough information",
   "unclear",
   "uncertain"]

def NO_CHUNKS_FOUND_MESSAGE : String :=
  "I couldn\x27t find any relevant information in the documents to answer your question."

/-! Module-level confidence scorer, from `src/confidence.py`. -/

/-- Embedding of `_get_length_adjustment` in `confidence.py`. -/
def get_length_adjustment (answer : String) : ℚ :=
  let answer_length := pyLen answer
  if CONFIDENCE_LONG_ANSWER_THRESHOLD < answer_length then CONFIDENCE_BOOST_LONG
  else if answer_length < CONFIDENCE_SHORT_ANSWER_THRESHOLD then -CONFIDENCE_PENALTY_SHORT
  else 0

/-- Embedding of `_get_chunk_count_adjustment` in `confidence.py`. -/
def get_chunk_count_adjustment (num_chunks : Int) : ℚ :=
  if CONFIDENCE_MIN_CHUNKS_THRESHOLD ≤ num_chunks then CONFIDENCE_BOOST_MANY_CHUNKS
  else if num_chunks = 1 then -CONFIDENCE_PENALTY_FEW_CHUNKS
  else 0

/-- Embedding of `_contains_uncertainty` in `confidence.py`. -/
def contains_uncertainty (answer : String) : Bool :=
  let answer_lower := pyLower answer
  UNCERTAINTY_PHRASES.any fun phrase => pyIn phrase answer_lower

/-- Embedding of `estimate_confidence` in `confidence.py`. -/
def estimate_confidence (answer : String) (num_chunks : Int) : ℚ :=
  let confidence := BASE_CONFIDENCE
  let confidence := confidence + get_length_adjustment answer
  let confidence := confidence + get_chunk_count_adjustment num_chunks
  let confidence :=
    if contains_uncertainty answer then confidence - CONFIDENCE_PENALTY_UNCERTAINTY
    else confidence
  pyMax 0 (pyMin 1 confidence)

/-- The confidence formula as the claim states it: 0.5, plus +0.2 when the
answer is longer than 100 characters or -0.2 when shorter than 30 (neither in
mid-range), plus +0.2 when the chunk count is at least 3 or -0.1 when it is
exactly 1 (neither otherwise), minus 0.3 when the lowercased answer contains
one of the five fixed uncertainty phrases, clamped to [0, 1]. -/
def confidence_claim_formula (answer : String) (num_chunks : Int) : ℚ :=
  let length_term : ℚ :=
    if 100 < pyLen answer then 0.2 else if pyLen answer < 30 then -0.2 else 0
  let chunk_term : ℚ :=
    if 3 ≤ num_chunks then 0.2 else if num_chunks = 1 then -0.1 else 0
  let uncertainty_term : ℚ :=
    if UNCERTAINTY_PHRASES.any (fun phrase => pyIn phrase (pyLower answer)) then 0.3 else 0
  pyMax 0 (pyMin 1 (0.5 + length_term + chunk_term - uncertainty_term))

/-! Source extraction and the answer-synthesis handler, from `src/query_handler.py`. -/

/-- A source citation as built by `QueryHandler._extract_sources`. -/
structure Source where
  document_name : String
  page_number : Option Int
  chunk_text : String
deriving DecidableEq

/-- Preview truncation from `QueryHandler._extract_sources`: the chunk text cut
to its first 200 characters, with "..." appended when it was longer. -/
def preview (content : String) : String :=
  let chunk_text := String.mk (content.data.take 200)
  if 200 < pyLen content then chunk_text ++ "..." else chunk_text

/-- Loop of `QueryHandler._extract_sources`: `sources` is the accumulated output
list and `seen` the set of `(source_name, page_number)` keys already emitted. -/
def extract_sources_loop : List Chunk → List Source → List (String × Option Int) → List Source
  | [], sources, _ => sources
  | c :: rest, sources, seen =>
    if (c.source, c.page) ∈ seen then extract_sources_loop rest sources seen
    else
      extract_sources_loop rest
        (sources ++ [⟨c.source, c.page, preview c.content⟩])
        ((c.source, c.page) :: seen)

/-- Embedding of `QueryHandler._extract_sources`. -/
def extract_sources (chunks : List Chunk) : List Source :=
  extract_sources_loop chunks [] []

/-- Structural restatement of source extraction as the claim describes it: walk
the chunks in order, emit one `Source` per first-seen `(document, page)` key
with that first chunk's preview, skip later chunks with an already-seen key. -/
def sourcesSpec (seen : List (String × Option Int)) : List Chunk → List Source
  | [] => []
  | c :: rest =>
    if (c.source, c.page) ∈ seen then sourcesSpec seen rest
    else ⟨c.source, c.page, preview c.content⟩ :: sourcesSpec ((c.source, c.page) :: seen) rest

/-- First-occurrence deduplication of a list of keys, `seen` already excluded. -/
def firstDedupAux {α : Type} [DecidableEq α] (seen : List α) : List α → List α
  | [] => []
  | a :: rest =>
    if a ∈ seen then firstDedupAux seen rest
    else a :: firstDedupAux (a :: seen) rest

/-! The hybrid retriever and the processor, from `src/pdf_processor.py`. -/

/-- The two sub-retrievers built by `_build_hybrid_retriever`. Their ranking
functions (BM25 term statistics, embedding similarity) live in external
libraries, so they are embedded as oracles: each maps a query to its ranked
result list, already cut to its internal top-k (the code sets both to 3). -/
structure Retriever where
  bm25_search : String → List Chunk
  vector_search : String → List Chunk

/-- Zero-based rank of a chunk in a ranked list, `none` when absent. -/
def rankOf (c : Chunk) : List Chunk → Option Nat
  | [] => none
  | d :: rest => if d = c then some 0 else (rankOf c rest).map (· + 1)

/-- Weighted normalized-rank contribution of one ranked list to a chunk. -/
def weightedContribution (w : ℚ) (l : List Chunk) (c : Chunk) : ℚ :=
  match rankOf c l with
  | some r => w * (1 / ((r : ℚ) + 1))
  | none => 0

/-- Fused score of a chunk given the two sub-retriever result lists, with the
configured weights `HYBRID_RETRIEVER_WEIGHTS = [0.5, 0.5]`. -/
def fusedScore (l1 l2 : List Chunk) (c : Chunk) : ℚ :=
  weightedContribution 0.5 l1 c + weightedContribution 0.5 l2 c

/-- Deduplicate a candidate list by content, keeping first occurrences. -/
def dedupChunksAux (seen : List String) : List Chunk → List Chunk
  | [] => []
  | c :: rest =>
    if c.content ∈ seen then dedupChunksAux seen rest
    else c :: dedupChunksAux (c.content :: seen) rest

def dedupChunks : List Chunk → List Chunk := dedupChunksAux []

/-- Insert a chunk into a list sorted by descending score, after existing
entries of equal score (stable: ties keep first-seen order). -/
def insertDesc (score : Chunk → ℚ) (c : Chunk) : List Chunk → List Chunk
  | [] => [c]
  | d :: rest => if score d < score c then c :: d :: rest else d :: insertDesc score c rest

/-- Stable sort by descending score. -/
def sortDesc (score : Chunk → ℚ) : List Chunk → List Chunk
  | [] => []
  | c :: rest => insertDesc score c (sortDesc score rest)

/-- Modelled from the spec: the rank fusion of the langchain `EnsembleRetriever`
built by `_build_hybrid_retriever` is library code absent from `src/`; spec
§4.4 specifies it as: invoke both sub-indexes (each bounded by its own internal
limit), give every chunk the weighted sum of its normalized rank contributions
from the lists it appears in (absent lists contribute zero), and sort the
deduplicated candidates by descending fused score, deterministically. -/
def Retriever.invoke (r : Retriever) (query : String) : List Chunk :=
  let l1 := r.bm25_search query
  let l2 := r.vector_search query
  sortDesc (fusedScore l1 l2) (dedupChunks (l1 ++ l2))

/-- State of the `PDFProcessor` singleton: the chunk store and, once
`load_and_index_pdfs` has run, the hybrid retriever. -/
structure PDFProcessor where
  chunks : List Chunk
  hybrid_retriever : Option Retriever

/-- Embedding of `PDFProcessor.retrieve_relevant_chunks`. -/
def retrieve_relevant_chunks (p : PDFProcessor) (query : String) (k : Nat) :
    Except Err (List Chunk) :=
  match p.hybrid_retriever with
  | none => .error .retrieverNotReady
  | some r => .ok ((r.invoke query).take k)

/-- State-passing form of `retrieve_relevant_chunks`: the Python method assigns
no attribute of `self` (it only reads `self.hybrid_retriever`), so its
state-passing embedding pairs the result with the processor it was given. -/
def retrieve_relevant_chunks_run (p : PDFProcessor) (query : String) (k : Nat) :
    Except Err (List Chunk) × PDFProcessor :=
  (retrieve_relevant_chunks p query k, p)

/-! The retrieval-only handler, from `src/retrieval_handler.py` and `src/models.py`. -/

/-- Response chunk model from `src/models.py` (the `metadata` passthrough dict
is represented by the fields the code reads out of it). -/
structure DocumentChunk where
  content : String
  document_name : String
  page_number : Option Int
deriving DecidableEq

/-- Response model from `src/models.py`. -/
structure RetrievalResponse where
  query : String
  chunks : List DocumentChunk
  total_chunks : Nat
deriving DecidableEq

/-- Embedding of `RetrievalHandler._convert_to_document_chunks`. -/
def convert_to_document_chunks (raw_chunks : List Chunk) : List DocumentChunk :=
  raw_chunks.map fun c => ⟨c.content, c.source, c.page⟩

/-- Embedding of `RetrievalHandler.retrieve`; the leading conditional is
`_validate_query` (`not query or not query.strip()`). -/
def RetrievalHandler.retrieve (p : PDFProcessor) (query : String) (max_chunks : Nat) :
    Except Err RetrievalResponse :=
  if query == "" || pyStrip query == "" then .error .emptyQuery
  else
    let query := pyStrip query
    match retrieve_relevant_chunks p query max_chunks with
    | .error e => .error e
    | .ok raw_chunks =>
      let document_chunks := convert_to_document_chunks raw_chunks
      .ok ⟨query, document_chunks, document_chunks.length⟩

/-! The answer-synthesis handler, from `src/query_handler.py`. -/

/-- Response model of the answer-synthesis handler. -/
structure QueryResponse where
  answer : String
  sources : List Source
  confidence_score : ℚ
deriving DecidableEq

/-- Embedding of `QueryHandler._estimate_confidence`, the inline-literal copy of
the scorer inside the handler. -/
def QueryHandler.estimate_confidence (answer : String) (num_chunks : Int) : ℚ :=
  let confidence : ℚ := 0.5
  let confidence :=
    if 100 < pyLen answer then confidence + 0.2
    else if pyLen answer < 30 then confidence - 0.2
    else confidence
  let confidence :=
    if 3 ≤ num_chunks then confidence + 0.2
    else if num_chunks = 1 then confidence - 0.1
    else confidence
  let uncertainty_phrases : List String :=
    ["i don\x27t know",
     "i couldn\x27t find",
     "not enough information",
     "unclear",
     "uncertain"]
  let answer_lower := pyLower answer
  let confidence :=
    if uncertainty_phrases.any (fun phrase => pyIn phrase answer_lower) then confidence - 0.3
    else confidence
  pyMax 0 (pyMin 1 confidence)

/-- Context lines of `QueryHandler._build_context`, enumerating from 1. -/
def build_context_parts : Nat → List Chunk → List String
  | _, [] => []
  | i, c :: rest =>
    ("[Source " ++ toString i ++ ": " ++ c.source ++ "]\n" ++ c.content ++ "\n")
      :: build_context_parts (i + 1) rest

/-- Embedding of `QueryHandler._build_context`. -/
def build_context (chunks : List Chunk) : String :=
  String.intercalate "\n" (build_context_parts 1 chunks)

/-- Embedding of `QueryHandler.query`. The external chat model behind
`_generate_answer` is the oracle `llm`, mapping the question and the context
block to the generated answer text (the code then strips it). -/
def QueryHandler.query (p : PDFProcessor) (llm : String → String → String)
    (question : String) : Except Err QueryResponse :=
  if question == "" || pyStrip question == "" then .error .emptyQuery
  else
    let question := pyStrip question
    match retrieve_relevant_chunks p question 5 with
    | .error e => .error e
    | .ok relevant_chunks =>
      if relevant_chunks.isEmpty then
        .ok ⟨NO_CHUNKS_FOUND_MESSAGE, [], 0⟩
      else
        let context := build_context relevant_chunks
        let answer := pyStrip (llm question context)
        let sources := extract_sources relevant_chunks
        let confidence := QueryHandler.estimate_confidence answer (relevant_chunks.length : Int)
        .ok ⟨answer, sources, confidence⟩

/-! Corpus building, from `PDFProcessor.load_and_index_pdfs`. -/

/-- Embedding of `PDFProcessor._process_pdf` after the external conversion and
Markdown-splitting steps: the resulting chunk contents are tagged with the file
name as their `source` metadata (no page metadata is set at build time). -/
def process_pdf (name : String) (contents : List String) : List Chunk :=
  contents.map fun c => ⟨c, name, none⟩

/-- Inner deduplication loop of `load_and_index_pdfs`: `acc` is the pair of
`all_chunks` and `seen_hashes`; each chunk is appended only when the hash of
its content is new. -/
def dedupeInto : List Chunk × List String → List Chunk → List Chunk × List String
  | acc, [] => acc
  | acc, c :: rest =>
    if generate_hash c.content ∈ acc.2 then dedupeInto acc rest
    else dedupeInto (acc.1 ++ [c], generate_hash c.content :: acc.2) rest

/-- Outer loop of `load_and_index_pdfs` over the documents. A document is a
name together with the chunk contents its conversion produced, or `none` when
`_process_pdf` raised — such documents are logged and skipped. -/
def load_docs : List Chunk × List String → List (String × Option (List String)) →
    List Chunk × List String
  | acc, [] => acc
  | acc, (_, none) :: rest => load_docs acc rest
  | acc, (name, some contents) :: rest => load_docs (dedupeInto acc (process_pdf name contents)) rest

/-- Embedding of `PDFProcessor.load_and_index_pdfs`, returning the deduplicated
chunk store `self.chunks` on success. The trailing `_build_hybrid_retriever`
side effect constructs the external indexes and is abstracted away; the claims
about built corpora quantify over processors whose retriever is present. -/
def load_and_index_pdfs (docs : List (String × Option (List String))) :
    Except Err (List Chunk) :=
  if docs.isEmpty then .error .noPdfFiles
  else
    let acc := load_docs ([], []) docs
    if acc.1.isEmpty then .error .emptyCorpus
    else .ok acc.1

/-- First-occurrence view of the chunks `dedupeInto` appends for a given seen set. -/
def dedupeNew (seen : List String) : List Chunk → List Chunk
  | [] => []
  | c :: rest =>
    if generate_hash c.content ∈ seen then dedupeNew seen rest
    else c :: dedupeNew (generate_hash c.content :: seen) rest

/-- Build-loop invariant: the stored hashes are distinct and all recorded in
`seen_hashes`. -/
def BuildInv (acc : List Chunk × List String) : Prop :=
  (acc.1.map fun c => generate_hash c.content).Nodup
    ∧ ∀ c ∈ acc.1, generate_hash c.content ∈ acc.2

/-! Concrete states used to instantiate the theorems. -/

/-- A corpus chunk used by the concrete retrieval scenarios. -/
def mkChunk (s : String) : Chunk := ⟨s, "doc.pdf", none⟩

/-- A retriever state in which both sub-indexes agree on the same top-3 ranking
out of a four-chunk corpus — e.g. both rankers score the corpus identically. -/
def cexRetriever : Retriever :=
  ⟨fun _ => [mkChunk "a", mkChunk "b", mkChunk "c"],
   fun _ => [mkChunk "a", mkChunk "b", mkChunk "c"]⟩

/-- A built processor with four distinct chunks and the retriever above. -/
def cexProcessor : PDFProcessor :=
  ⟨[mkChunk "a", mkChunk "b", mkChunk "c", mkChunk "d"], some cexRetriever⟩

/-- A retriever whose sub-indexes return nothing for any query. -/
def emptyRetriever : Retriever := ⟨fun _ => [], fun _ => []⟩

/-- A built processor whose retrieval finds no chunks. -/
def readyProcessor : PDFProcessor := ⟨[], some emptyRetriever⟩

/-- A 201-character answer with no uncertainty phrase. -/
def longAnswer : String := String.mk (List.replicate 201 'a')

/-! Helper lemmas. -/

theorem data_mk (l : List Char) : (String.mk l).data = l := rfl

theorem length_insertDesc (f : Chunk → ℚ) (c : Chunk) (l : List Chunk) :
    (insertDesc f c l).length = l.length + 1 := by
  induction l with
  | nil => simp [insertDesc]
  | cons d rest ih =>
    simp only [insertDesc]
    split
    · simp
    · simp [ih]

theorem length_sortDesc (f : Chunk → ℚ) (l : List Chunk) :
    (sortDesc f l).length = l.length := by
  induction l with
  | nil => simp [sortDesc]
  | cons c rest ih => simp [sortDesc, length_insertDesc, ih]

theorem dedupeInto_fst (cs : List Chunk) : ∀ all seen,
    (dedupeInto (all, seen) cs).1 = all ++ dedupeNew seen cs := by
  induction cs with
  | nil => intro all seen; simp [dedupeInto, dedupeNew]
  | cons c rest ih =>
    intro all seen
    by_cases h : generate_hash c.content ∈ seen
    · simp [dedupeInto, dedupeNew, h, ih]
    · simp [dedupeInto, dedupeNew, h, ih, List.append_assoc]

theorem dedupeInto_fst_pair (cs : List Chunk) (acc : List Chunk × List String) :
    (dedupeInto acc cs).1 = acc.1 ++ dedupeNew acc.2 cs := by
  obtain ⟨all, seen⟩ := acc
  exact dedupeInto_fst cs all seen

theorem mem_dedupeInto_snd (cs : List Chunk) : ∀ all seen y, y ∈ seen →
    y ∈ (dedupeInto (all, seen) cs).2 := by
  induction cs with
  | nil => intro all seen y hy; simpa [dedupeInto] using hy
  | cons c rest ih =>
    intro all seen y hy
    by_cases h : generate_hash c.content ∈ seen
    · simpa [dedupeInto, h] using ih all seen y hy
    · simpa [dedupeInto, h] using ih _ _ y (List.mem_cons_of_mem _ hy)

theorem mem_dedupeInto_snd_of_mem (cs : List Chunk) : ∀ all seen (c : Chunk), c ∈ cs →
    generate_hash c.content ∈ (dedupeInto (all, seen) cs).2 := by
  induction cs with
  | nil => intro all seen c hc; simp at hc
  | cons d rest ih =>
    intro all seen c hc
    rcases List.mem_cons.mp hc with rfl | hc
    · by_cases h : generate_hash c.content ∈ seen
      · simpa [dedupeInto, h] using mem_dedupeInto_snd rest all seen _ h
      · simpa [dedupeInto, h] using
          mem_dedupeInto_snd rest _ _ _ (List.mem_cons_self _ _)
    · by_cases h : generate_hash d.content ∈ seen
      · simpa [dedupeInto, h] using ih all seen c hc
      · simpa [dedupeInto, h] using ih _ _ c hc

theorem dedupeNew_filter_mem_seen (x : String) (cs : List Chunk) : ∀ seen,
    generate_hash x ∈ seen →
    (dedupeNew seen cs).filter (fun c => c.content == x) = [] := by
  induction cs with
  | nil => intro seen _; simp [dedupeNew]
  | cons c rest ih =>
    intro seen hx
    by_cases h : generate_hash c.content ∈ seen
    · simp [dedupeNew, h, ih seen hx]
    · have hne : ¬(c.content = x) := by
        intro he
        exact h (by simpa [generate_hash, he] using hx)
      simp [dedupeNew, h, hne, ih _ (List.mem_cons_of_mem _ hx)]

theorem dedupeNew_filter_first (x : String) (cs : List Chunk) : ∀ seen,
    generate_hash x ∉ seen → x ∈ cs.map Chunk.content →
    ∃ c ∈ cs, c.content = x ∧ (dedupeNew seen cs).filter (fun c => c.content == x) = [c] := by
  induction cs with
  | nil => intro seen _ hx; simp at hx
  | cons c rest ih =>
    intro seen hseen hx
    by_cases h : generate_hash c.content ∈ seen
    · have hne : ¬(c.content = x) := by
        intro he; exact hseen (by simpa [generate_hash, he] using h)
      have hx' : x ∈ rest.map Chunk.content := by
        rcases List.mem_map.mp hx with ⟨d, hd, hdx⟩
        rcases List.mem_cons.mp hd with rfl | hd
        · exact absurd hdx hne
        · exact List.mem_map.mpr ⟨d, hd, hdx⟩
      rcases ih seen hseen hx' with ⟨d, hd, hdx, hfil⟩
      exact ⟨d, List.mem_cons_of_mem _ hd, hdx, by simp [dedupeNew, h, hfil]⟩
    · by_cases hcx : c.content = x
      · subst hcx
        refine ⟨c, List.mem_cons_self _ _, rfl, ?_⟩
        have hrest : (dedupeNew (generate_hash c.content :: seen) rest).filter
            (fun d => d.content == c.content) = [] :=
          dedupeNew_filter_mem_seen c.content rest _ (by simp)
        simp [dedupeNew, h, hrest]
      · have hx' : x ∈ rest.map Chunk.content := by
          rcases List.mem_map.mp hx with ⟨d, hd, hdx⟩
          rcases List.mem_cons.mp hd with rfl | hd
          · exact absurd hdx hcx
          · exact List.mem_map.mpr ⟨d, hd, hdx⟩
        have hseen' : generate_hash x ∉ generate_hash c.content :: seen := by
          simp only [List.mem_cons]
          rintro (he | he)
          · exact hcx (by simpa [generate_hash] using he.symm)
          · exact hseen he
        rcases ih _ hseen' hx' with ⟨d, hd, hdx, hfil⟩
        exact ⟨d, List.mem_cons_of_mem _ hd, hdx, by simp [dedupeNew, h, hcx, hfil]⟩

theorem dedupeInto_inv (cs : List Chunk) : ∀ acc, BuildInv acc →
    BuildInv (dedupeInto acc cs) := by
  induction cs with
  | nil => intro acc h; simpa [dedupeInto] using h
  | cons c rest ih =>
    rintro ⟨all, seen⟩ ⟨hnd, hsub⟩
    by_cases h : generate_hash c.content ∈ seen
    · simpa [dedupeInto, h] using ih (all, seen) ⟨hnd, hsub⟩
    · have hnew : generate_hash c.content ∉ all.map fun d => generate_hash d.content := by
        intro hmem
        rcases List.mem_map.mp hmem with ⟨d, hd, hdc⟩
        exact h (hdc ▸ hsub d hd)
      have hinv : BuildInv (all ++ [c], generate_hash c.content :: seen) := by
        constructor
        · simpa [List.nodup_append, hnd] using hnew
        · intro d hd
          rcases List.mem_append.mp hd with hd | hd
          · exact List.mem_cons_of_mem _ (hsub d hd)
          · simp at hd
            simp [hd]
      simpa [dedupeInto, h] using ih _ hinv

theorem load_docs_inv (docs : List (String × Option (List String))) : ∀ acc, BuildInv acc →
    BuildInv (load_docs acc docs) := by
  induction docs with
  | nil => intro acc h; simpa [load_docs] using h
  | cons d rest ih =>
    intro acc h
    match d with
    | (name, none) => simpa [load_docs] using ih acc h
    | (name, some contents) =>
      simpa [load_docs] using ih _ (dedupeInto_inv _ acc h)

theorem extract_sources_loop_eq (cs : List Chunk) : ∀ sources seen,
    extract_sources_loop cs sources seen = sources ++ sourcesSpec seen cs := by
  induction cs with
  | nil => intro sources seen; simp [extract_sources_loop, sourcesSpec]
  | cons c rest ih =>
    intro sources seen
    by_cases h : (c.source, c.page) ∈ seen
    · simp [extract_sources_loop, sourcesSpec, h, ih]
    · simp [extract_sources_loop, sourcesSpec, h, ih, List.append_assoc]

theorem sourcesSpec_map_key (cs : List Chunk) : ∀ seen,
    (sourcesSpec seen cs).map (fun s => (s.document_name, s.page_number)) =
      firstDedupAux seen (cs.map fun c => (c.source, c.page)) := by
  induction cs with
  | nil => intro seen; simp [sourcesSpec, firstDedupAux]
  | cons c rest ih =>
    intro seen
    by_cases h : (c.source, c.page) ∈ seen
    · simp [sourcesSpec, firstDedupAux, h, ih]
    · simp [sourcesSpec, firstDedupAux, h, ih]

theorem firstDedupAux_nodup {α : Type} [DecidableEq α] (l : List α) : ∀ seen,
    (firstDedupAux seen l).Nodup ∧ ∀ a ∈ firstDedupAux seen l, a ∉ seen := by
  induction l with
  | nil => intro seen; simp [firstDedupAux]
  | cons a rest ih =>
    intro seen
    by_cases h : a ∈ seen
    · simpa [firstDedupAux, h] using ih seen
    · have hrec := ih (a :: seen)
      have hstep : firstDedupAux seen (a :: rest) = a :: firstDedupAux (a :: seen) rest := by
        simp [firstDedupAux, h]
      rw [hstep]
      refine ⟨?_, ?_⟩
      · refine List.nodup_cons.mpr ⟨fun hmem => ?_, hrec.1⟩
        exact hrec.2 a hmem (List.mem_cons_self _ _)
      · intro b hb
        rcases List.mem_cons.mp hb with hba | hb
        · exact hba ▸ h
        · exact fun hbs => hrec.2 b hb (List.mem_cons_of_mem _ hbs)

theorem process_pdf_map_content (name : String) (contents : List String) :
    (process_pdf name contents).map Chunk.content = contents := by
  simp [process_pdf, List.map_map, Function.comp_def]

theorem firstDedupAux_complete {α : Type} [DecidableEq α] (l : List α) : ∀ seen a, a ∈ l →
    a ∈ seen ∨ a ∈ firstDedupAux seen l := by
  induction l with
  | nil => intro seen a ha; simp at ha
  | cons b rest ih =>
    intro seen a ha
    rcases List.mem_cons.mp ha with rfl | ha
    · by_cases h : a ∈ seen
      · exact Or.inl h
      · exact Or.inr (by simp [firstDedupAux, h])
    · by_cases h : b ∈ seen
      · simpa [firstDedupAux, h] using ih seen a ha
      · rcases ih (b :: seen) a ha with hmem | hmem
        · rcases List.mem_cons.mp hmem with rfl | hmem
          · exact Or.inr (by simp [firstDedupAux, h])
          · exact Or.inl hmem
        · exact Or.inr (by simp [firstDedupAux, h, hmem])

/-! Claim theorems. -/

/-- Claim C1 (counterexample): on a built corpus of four distinct chunks whose
two sub-indexes each return the same top-3 ranking, `retrieve(query, limit=4)`
returns 3 results, not `min(4, available_unique_chunks) = 4`: the internal
top-3 caps of the sub-indexes bound the fused candidate set. -/
theorem C1_counterexample :
    retrieve_relevant_chunks cexProcessor "q" 4 = .ok [mkChunk "a", mkChunk "b", mkChunk "c"]
    ∧ cexProcessor.chunks.length = 4
    ∧ (cexProcessor.chunks.map Chunk.content).Nodup
    ∧ ([mkChunk "a", mkChunk "b", mkChunk "c"] : List Chunk).length ≠
        min 4 cexProcessor.chunks.length := by
  refine ⟨?_, by decide, by decide, by decide⟩
  have r1 : rankOf (mkChunk "a") [mkChunk "a", mkChunk "b", mkChunk "c"] = some 0 := by decide
  have r2 : rankOf (mkChunk "b") [mkChunk "a", mkChunk "b", mkChunk "c"] = some 1 := by decide
  have r3 : rankOf (mkChunk "c") [mkChunk "a", mkChunk "b", mkChunk "c"] = some 2 := by decide
  have hd : dedupChunks ([mkChunk "a", mkChunk "b", mkChunk "c"]
      ++ [mkChunk "a", mkChunk "b", mkChunk "c"]) = [mkChunk "a", mkChunk "b", mkChunk "c"] := by
    decide
  norm_num [retrieve_relevant_chunks, cexProcessor, cexRetriever, Retriever.invoke,
    sortDesc, insertDesc, fusedScore, weightedContribution, r1, r2, r3, hd]

/-- Claim C1 (amended): on a built corpus, `retrieve(query, limit=n)` returns
at most `n` results, and exactly `min(n, F)` results where `F` is the number of
chunks in the fused output of the two sub-indexes for this query (each capped
at its internal top-3 limit) — not `min(n, available_unique_chunks)`. -/
theorem C1_retrieve_limit : ∀ (p : PDFProcessor) (r : Retriever) (q : String) (n : Nat),
    p.hybrid_retriever = some r →
    retrieve_relevant_chunks p q n = .ok ((r.invoke q).take n)
    ∧ ((r.invoke q).take n).length = min n (r.invoke q).length
    ∧ ((r.invoke q).take n).length ≤ n := by
  intro p r q n h
  refine ⟨by simp [retrieve_relevant_chunks, h], List.length_take _ _, ?_⟩
  rw [List.length_take]
  exact min_le_left _ _

theorem C1_retrieve_limit_witness :
    retrieve_relevant_chunks cexProcessor "q" 4 = .ok ((cexRetriever.invoke "q").take 4)
    ∧ ((cexRetriever.invoke "q").take 4).length = min 4 (cexRetriever.invoke "q").length
    ∧ ((cexRetriever.invoke "q").take 4).length ≤ 4 :=
  C1_retrieve_limit cexProcessor cexRetriever "q" 4 rfl

/-- Claim C2: after a successful corpus build the stored chunks have pairwise
distinct content hashes; and building from two documents that share one
paragraph yields exactly one chunk with that content, attributed to the first
document in processing order. -/
theorem C2_build_dedup :
    (∀ docs chunks, load_and_index_pdfs docs = .ok chunks →
      (chunks.map fun c => generate_hash c.content).Nodup)
    ∧ ∀ (n1 n2 : String) (l1 l2 : List String) (x : String), x ∈ l1 → x ∈ l2 →
      ∃ chunks, load_and_index_pdfs [(n1, some l1), (n2, some l2)] = .ok chunks
        ∧ chunks.filter (fun c => c.content == x) = [⟨x, n1, none⟩] := by
  constructor
  · intro docs chunks h
    simp only [load_and_index_pdfs] at h
    split at h
    · exact absurd h (by simp)
    · split at h
      · exact absurd h (by simp)
      · have hinv := load_docs_inv docs ([], []) ⟨by simp, by simp⟩
        injection h with h2
        exact h2 ▸ hinv.1
  · intro n1 n2 l1 l2 x hx1 hx2
    have hmem1 : x ∈ (process_pdf n1 l1).map Chunk.content := by
      rw [process_pdf_map_content]; exact hx1
    obtain ⟨c, hc, hcx, hfil1⟩ :=
      dedupeNew_filter_first x (process_pdf n1 l1) [] (by simp) hmem1
    obtain ⟨y, hy, hyc⟩ := List.mem_map.mp hc
    subst hyc
    have hyx : y = x := by simpa using hcx
    subst hyx
    have hload : load_docs (([], []) : List Chunk × List String) [(n1, some l1), (n2, some l2)]
        = dedupeInto (dedupeInto ([], []) (process_pdf n1 l1)) (process_pdf n2 l2) := by
      simp [load_docs]
    have hfst1 : (dedupeInto (([], []) : List Chunk × List String) (process_pdf n1 l1)).1
        = dedupeNew [] (process_pdf n1 l1) := by
      simpa using dedupeInto_fst (process_pdf n1 l1) [] []
    have hseen2 : generate_hash y ∈
        (dedupeInto (([], []) : List Chunk × List String) (process_pdf n1 l1)).2 := by
      have hmem := mem_dedupeInto_snd_of_mem (process_pdf n1 l1) [] []
        (⟨y, n1, none⟩ : Chunk) (List.mem_map.mpr ⟨y, hy, rfl⟩)
      simpa using hmem
    have hfil2 : (dedupeNew
        (dedupeInto (([], []) : List Chunk × List String) (process_pdf n1 l1)).2
        (process_pdf n2 l2)).filter (fun c => c.content == y) = [] :=
      dedupeNew_filter_mem_seen y (process_pdf n2 l2) _ hseen2
    have hacc : (load_docs (([], []) : List Chunk × List String)
        [(n1, some l1), (n2, some l2)]).1
        = dedupeNew [] (process_pdf n1 l1)
          ++ dedupeNew (dedupeInto (([], []) : List Chunk × List String)
              (process_pdf n1 l1)).2 (process_pdf n2 l2) := by
      rw [hload, dedupeInto_fst_pair, hfst1]
    have hfilter : ((load_docs (([], []) : List Chunk × List String)
        [(n1, some l1), (n2, some l2)]).1).filter (fun c => c.content == y)
        = [⟨y, n1, none⟩] := by
      rw [hacc, List.filter_append, hfil1, hfil2, List.append_nil]
    have hne : (load_docs (([], []) : List Chunk × List String)
        [(n1, some l1), (n2, some l2)]).1 ≠ [] := by
      intro h0
      rw [h0] at hfilter
      simp at hfilter
    refine ⟨_, ?_, hfilter⟩
    simp only [load_and_index_pdfs, List.isEmpty_cons]
    simp [List.isEmpty_iff, hne]

theorem C2_build_dedup_witness :
    (∃ chunks, load_and_index_pdfs [("d1", some ["A", "B"]), ("d2", some ["B", "C"])]
        = .ok chunks ∧ chunks.filter (fun c => c.content == "B") = [⟨"B", "d1", none⟩])
    ∧ (([⟨"A", "d1", none⟩, ⟨"B", "d1", none⟩, ⟨"C", "d2", none⟩] : List Chunk).map
        fun c => generate_hash c.content).Nodup := by
  constructor
  · exact C2_build_dedup.2 "d1" "d2" ["A", "B"] ["B", "C"] "B" (by decide) (by decide)
  · exact C2_build_dedup.1 [("d1", some ["A", "B"]), ("d2", some ["B", "C"])] _ rfl

/-- Claim C3: for every answer string and chunk count the confidence score of
`estimate_confidence` equals the claimed closed formula: 0.5, plus the length
adjustment (+0.2 above 100 characters, -0.2 below 30), plus the chunk-count
adjustment (+0.2 at 3 or more, -0.1 at exactly 1), minus 0.3 when an
uncertainty phrase occurs, clamped to [0, 1]. -/
theorem C3_confidence_formula : ∀ (answer : String) (num_chunks : Int),
    estimate_confidence answer num_chunks = confidence_claim_formula answer num_chunks := by
  intro a c
  simp only [estimate_confidence, confidence_claim_formula, get_length_adjustment,
    get_chunk_count_adjustment, contains_uncertainty, BASE_CONFIDENCE,
    CONFIDENCE_LONG_ANSWER_THRESHOLD, CONFIDENCE_SHORT_ANSWER_THRESHOLD,
    CONFIDENCE_MIN_CHUNKS_THRESHOLD, CONFIDENCE_BOOST_LONG, CONFIDENCE_PENALTY_SHORT,
    CONFIDENCE_BOOST_MANY_CHUNKS, CONFIDENCE_PENALTY_FEW_CHUNKS,
    CONFIDENCE_PENALTY_UNCERTAINTY]
  congr 1
  congr 1
  split_ifs <;> norm_num

/-- Claim C4: the exact answer "I don't know the answer to this question."
with one chunk scores at most 0.3, and any answer longer than 200 characters
without uncertainty phrases scores at least 0.7 with five chunks. -/
theorem C4_confidence_examples :
    estimate_confidence "I don\x27t know the answer to this question." 1 ≤ 0.3
    ∧ ∀ answer : String, 200 < pyLen answer → contains_uncertainty answer = false →
        0.7 ≤ estimate_confidence answer 5 := by
  constructor
  · have h1 : contains_uncertainty "I don\x27t know the answer to this question." = true := by
      decide
    have h2 : pyLen "I don\x27t know the answer to this question." = 41 := by decide
    simp [estimate_confidence, get_length_adjustment, get_chunk_count_adjustment, h1, h2,
      BASE_CONFIDENCE, CONFIDENCE_LONG_ANSWER_THRESHOLD, CONFIDENCE_SHORT_ANSWER_THRESHOLD,
      CONFIDENCE_MIN_CHUNKS_THRESHOLD, CONFIDENCE_BOOST_LONG, CONFIDENCE_PENALTY_SHORT,
      CONFIDENCE_BOOST_MANY_CHUNKS, CONFIDENCE_PENALTY_FEW_CHUNKS,
      CONFIDENCE_PENALTY_UNCERTAINTY, pyMax, pyMin]
    norm_num
  · intro a hlen hunc
    have h3 : CONFIDENCE_LONG_ANSWER_THRESHOLD < pyLen a := by
      simp only [CONFIDENCE_LONG_ANSWER_THRESHOLD]
      omega
    simp [estimate_confidence, get_length_adjustment, get_chunk_count_adjustment, hunc, h3,
      BASE_CONFIDENCE, CONFIDENCE_MIN_CHUNKS_THRESHOLD, CONFIDENCE_BOOST_LONG,
      CONFIDENCE_BOOST_MANY_CHUNKS, CONFIDENCE_PENALTY_UNCERTAINTY, pyMax, pyMin]
    norm_num

set_option maxRecDepth 4000 in
theorem C4_confidence_examples_witness :
    200 < pyLen longAnswer ∧ contains_uncertainty longAnswer = false
    ∧ 0.7 ≤ estimate_confidence longAnswer 5 := by
  have h1 : 200 < pyLen longAnswer := by
    simp [pyLen, longAnswer, data_mk]
  have h2 : contains_uncertainty longAnswer = false := by decide
  exact ⟨h1, h2, C4_confidence_examples.2 longAnswer h1 h2⟩

/-- Claim C5: invoking retrieval while no hybrid retriever exists fails with
the retriever-not-ready error and leaves the processor state unchanged. -/
theorem C5_not_ready : ∀ (p : PDFProcessor) (q : String) (k : Nat),
    p.hybrid_retriever = none →
    retrieve_relevant_chunks_run p q k = (.error .retrieverNotReady, p) := by
  intro p q k h
  simp [retrieve_relevant_chunks_run, retrieve_relevant_chunks, h]

theorem C5_not_ready_witness :
    retrieve_relevant_chunks_run ⟨[], none⟩ "q" 5 = (.error .retrieverNotReady, ⟨[], none⟩) :=
  C5_not_ready ⟨[], none⟩ "q" 5 rfl

/-- Claim C6: for every input that is empty after stripping, both handlers fail
with the empty-query validation error; the result is the same for every
processor state — in particular for states with no retriever at all and for
arbitrary index oracles — so no index lookup influences it. -/
theorem C6_empty_query : ∀ (p : PDFProcessor) (q : String) (n : Nat)
    (llm : String → String → String), pyStrip q = "" →
    RetrievalHandler.retrieve p q n = .error .emptyQuery
    ∧ QueryHandler.query p llm q = .error .emptyQuery := by
  intro p q n llm h
  constructor
  · simp [RetrievalHandler.retrieve, h]
  · simp [QueryHandler.query, h]

theorem C6_empty_query_witness :
    RetrievalHandler.retrieve readyProcessor "   " 5 = .error .emptyQuery
    ∧ QueryHandler.query readyProcessor (fun _ _ => "") "   " = .error .emptyQuery :=
  C6_empty_query readyProcessor "   " 5 (fun _ _ => "") (by decide)

/-- Claim C7: whenever the hybrid retriever returns no chunks for a (nonblank)
query, the retrieval handler answers with zero total chunks and an empty chunk
list, and the query handler answers with the fixed no-information message,
empty sources, and confidence 0.0 — for every generation oracle `llm`, so the
text-generation endpoint is never consulted. -/
theorem C7_no_match : ∀ (p : PDFProcessor) (r : Retriever) (q : String) (n : Nat)
    (llm : String → String → String),
    p.hybrid_retriever = some r → r.invoke (pyStrip q) = [] → pyStrip q ≠ "" →
    RetrievalHandler.retrieve p q n = .ok ⟨pyStrip q, [], 0⟩
    ∧ QueryHandler.query p llm q = .ok ⟨NO_CHUNKS_FOUND_MESSAGE, [], 0⟩ := by
  intro p r q n llm hr hempty hq
  have hq0 : ¬(q = "") := by
    intro he
    exact hq (by rw [he]; rfl)
  constructor
  · simp [RetrievalHandler.retrieve, hq0, hq, retrieve_relevant_chunks, hr, hempty,
      convert_to_document_chunks]
  · simp [QueryHandler.query, hq0, hq, retrieve_relevant_chunks, hr, hempty]

theorem C7_no_match_witness :
    RetrievalHandler.retrieve readyProcessor "hello" 5 = .ok ⟨pyStrip "hello", [], 0⟩
    ∧ QueryHandler.query readyProcessor (fun _ _ => "ans") "hello"
        = .ok ⟨NO_CHUNKS_FOUND_MESSAGE, [], 0⟩ :=
  C7_no_match readyProcessor emptyRetriever "hello" 5 (fun _ _ => "ans") rfl rfl (by decide)

/-- Claim C8: source extraction equals its first-seen structural description
(one `Source` per distinct (document, page) key, first chunk's preview kept,
first-seen order), its emitted keys are the first-occurrence deduplication of
the chunk keys, they are pairwise distinct and cover every chunk's key; and a
250-character chunk body yields a preview of exactly 203 characters. -/
theorem C8_extract_sources : ∀ chunks : List Chunk,
    extract_sources chunks = sourcesSpec [] chunks
    ∧ ((extract_sources chunks).map fun s => (s.document_name, s.page_number))
        = firstDedupAux [] (chunks.map fun c => (c.source, c.page))
    ∧ (((extract_sources chunks).map fun s => (s.document_name, s.page_number)).Nodup)
    ∧ (∀ c ∈ chunks,
        (c.source, c.page) ∈ (extract_sources chunks).map fun s => (s.document_name, s.page_number))
    ∧ ∀ content : String, pyLen content = 250 → pyLen (preview content) = 203 := by
  intro chunks
  have h1 : extract_sources chunks = sourcesSpec [] chunks := by
    simpa using extract_sources_loop_eq chunks [] []
  have h2 : ((extract_sources chunks).map fun s => (s.document_name, s.page_number))
      = firstDedupAux [] (chunks.map fun c => (c.source, c.page)) := by
    rw [h1]
    exact sourcesSpec_map_key chunks []
  refine ⟨h1, h2, ?_, ?_, ?_⟩
  · rw [h2]
    exact (firstDedupAux_nodup _ []).1
  · intro c hc
    rw [h2]
    rcases firstDedupAux_complete (chunks.map fun c => (c.source, c.page)) [] (c.source, c.page)
        (List.mem_map.mpr ⟨c, hc, rfl⟩) with hmem | hmem
    · simp at hmem
    · exact hmem
  · intro s hs
    have hdata : s.data.length = 250 := hs
    have hell : ("..." : String).data.length = 3 := rfl
    simp [preview, pyLen, hdata, String.data_append, data_mk, hell]

set_option maxRecDepth 4000 in
theorem C8_extract_sources_witness :
    extract_sources [⟨"x", "d.pdf", some 1⟩, ⟨"y", "d.pdf", some 1⟩]
      = sourcesSpec [] [⟨"x", "d.pdf", some 1⟩, ⟨"y", "d.pdf", some 1⟩]
    ∧ (("d.pdf", some 1) ∈ (extract_sources [⟨"x", "d.pdf", some 1⟩, ⟨"y", "d.pdf", some 1⟩]).map
        fun s => (s.document_name, s.page_number))
    ∧ pyLen (preview (String.mk (List.replicate 250 'x'))) = 203 := by
  have h250 : pyLen (String.mk (List.replicate 250 'x')) = 250 := by
    simp [pyLen, data_mk]
  refine ⟨(C8_extract_sources [⟨"x", "d.pdf", some 1⟩, ⟨"y", "d.pdf", some 1⟩]).1, ?_,
    (C8_extract_sources [⟨"x", "d.pdf", some 1⟩, ⟨"y", "d.pdf", some 1⟩]).2.2.2.2 _ h250⟩
  exact (C8_extract_sources [⟨"x", "d.pdf", some 1⟩, ⟨"y", "d.pdf", some 1⟩]).2.2.2.1
    ⟨"x", "d.pdf", some 1⟩ (by simp)

/-- Claim C9: every successful response of the retrieval handler has
`total_chunks` equal to the length of its chunk list, and its `query` field is
the input query with surrounding whitespace stripped. -/
theorem C9_response_invariant : ∀ (p : PDFProcessor) (q : String) (n : Nat)
    (resp : RetrievalResponse),
    RetrievalHandler.retrieve p q n = .ok resp →
    resp.total_chunks = resp.chunks.length ∧ resp.query = pyStrip q := by
  intro p q n resp h
  simp only [RetrievalHandler.retrieve] at h
  split at h
  · exact absurd h (by simp)
  · split at h
    · exact absurd h (by simp)
    · injection h with h2
      exact h2 ▸ ⟨rfl, rfl⟩

theorem C9_response_invariant_witness :
    (⟨"hi", [], 0⟩ : RetrievalResponse).total_chunks
        = (⟨"hi", [], 0⟩ : RetrievalResponse).chunks.length
    ∧ (⟨"hi", [], 0⟩ : RetrievalResponse).query = pyStrip " hi " :=
  C9_response_invariant readyProcessor " hi " 5 ⟨"hi", [], 0⟩ rfl

/-- Claim C10: the module-level scorer `estimate_confidence` (written with the
named constants of `constants.py`) and the handler's inline-literal copy
`QueryHandler.estimate_confidence` compute the same value on every answer
string and chunk count. -/
theorem C10_confidence_equiv : ∀ (answer : String) (num_chunks : Int),
    estimate_confidence answer num_chunks = QueryHandler.estimate_confidence answer num_chunks := by
  intro a c
  simp only [estimate_confidence, QueryHandler.estimate_confidence, get_length_adjustment,
    get_chunk_count_adjustment, contains_uncertainty, UNCERTAINTY_PHRASES, BASE_CONFIDENCE,
    CONFIDENCE_LONG_ANSWER_THRESHOLD, CONFIDENCE_SHORT_ANSWER_THRESHOLD,
    CONFIDENCE_MIN_CHUNKS_THRESHOLD, CONFIDENCE_BOOST_LONG, CONFIDENCE_PENALTY_SHORT,
    CONFIDENCE_BOOST_MANY_CHUNKS, CONFIDENCE_PENALTY_FEW_CHUNKS,
    CONFIDENCE_PENALTY_UNCERTAINTY]
  congr 1
  congr 1
  split_ifs <;> norm_num

end PdfMcp
